import Mathlib

/-!
Verification of the yt-dlp-api server (server.js) against its
natural-language specification.

The repository holds two near-duplicate variants of the same Express
server concatenated in server.js: the first (no cookie support, three
retry strategies, 5000 ms inter-attempt delay) and the second
(cookie-aware, one or two strategies, 2000 ms delay).  The shallow
embedding below models, for both variants:

- the process invoker executeYtDlp as a function of the observable
  child-process outcome (exit event with code and captured streams,
  spawn failure, or timeout);
- the strategy sequencers getVideoInfo and downloadMedia as a loop over
  the statically configured argument lists, driven by an environment
  oracle that yields the child-process outcome for each invoked
  argument list and the download-directory listing observed after it,
  producing a trace of events (process invocations, inter-attempt
  delays, partial-file cleanups) together with the final result;
- the file resolver findDownloadedFile and the partial-artifact cleanup
  cleanupPartialFiles over explicit directory listings, with failure
  oracles for the filesystem calls whose exceptions the source catches;
- the retention sweeper body cleanupOldFiles over a listing with
  modification times;
- the request-handler validation and control flow for the three routes.

External behavior that the source merely calls (the WHATWG URL parser,
JSON.parse) is abstracted as an oracle function argument; everything
the repository itself computes is translated directly from server.js.
-/

namespace YtDlpApi

/-- Outcome of one spawned child process as the source observes it:
either the close event fires with an exit code and the accumulated
standard output and standard error, or the spawn itself fails, or the
60 second timeout fires first. -/
inductive ProcEvent where
  | exited (code : Int) (stdout : String) (stderr : String)
  | spawnFailed (msg : String)
  | timedOut
deriving DecidableEq, Repr

/-- The value executeYtDlp resolves with (the source always sets
success to true on resolution, so only the captured streams remain). -/
structure ExecOk where
  stdout : String
  stderr : String
deriving DecidableEq, Repr

/-- Process invoker, from executeYtDlp in server.js: on the close event
it resolves when the exit code is zero or any standard output was
captured, and otherwise rejects with the captured standard error when
that is nonempty, else with an exit-code message; a spawn failure or
the timeout reject with their fixed messages. -/
def executeYtDlp : ProcEvent → Except String ExecOk
  | .exited code out err =>
    if code = 0 ∨ out ≠ "" then .ok ⟨out, err⟩
    else .error (if err ≠ "" then err else "Exit code: " ++ toString code)
  | .spawnFailed msg => .error ("Failed to spawn yt-dlp: " ++ msg)
  | .timedOut => .error "Timeout after 60 seconds"

/-- The characters removed by cleanFilename in server.js. -/
def badChars : List Char := ['<', '>', ':', '\"', '/', '\\', '|', '?', '*']

/-- Filename sanitizer, from cleanFilename in server.js: a missing
(null or undefined) or empty input yields the string unknown, and
otherwise every reserved character is replaced by an underscore and the
result is truncated to its first 100 characters. -/
def cleanFilename (filename : Option String) : String :=
  match filename with
  | none => "unknown"
  | some s =>
    if s = "" then "unknown"
    else ((s.data.map (fun c => if c ∈ badChars then '_' else c)).take 100).asString

/-- Whether the list needle occurs contiguously inside the list hay,
matching the String.prototype.includes calls of the source. -/
def listContains [DecidableEq α] : List α → List α → Bool
  | [], needle => needle.isEmpty
  | a :: as, needle => needle.isPrefixOf (a :: as) || listContains as needle

/-- String containment as used by the includes calls in server.js. -/
def strIncludes (hay needle : String) : Bool :=
  listContains hay.data needle.data

/-- Whether the list l ends with the list suf. -/
def listEndsWith [DecidableEq α] (l suf : List α) : Bool :=
  suf.reverse.isPrefixOf l.reverse

/-- String suffix test as used by the endsWith calls in server.js. -/
def strEndsWith (s suf : String) : Bool :=
  listEndsWith s.data suf.data

/-- Last path component, modelling path.basename as applied by the
source to its output templates (which never end in a separator): the
characters after the last slash. -/
def pathBasename (p : String) : String :=
  (p.data.foldl (fun acc c => if c = '/' then [] else acc ++ [c]) []).asString

/-- One entry of the download directory as the source observes it: the
name returned by readdirSync and the size returned by statSync. -/
structure FileEntry where
  name : String
  size : Nat
deriving DecidableEq, Repr

/-- The predicate of findDownloadedFile in server.js: the entry name
contains the base name, does not end in .part or .ytdl, and the entry
has non-zero size. -/
def completedMatch (baseName : String) (f : FileEntry) : Bool :=
  strIncludes f.name baseName && !strEndsWith f.name ".part" &&
    !strEndsWith f.name ".ytdl" && decide (0 < f.size)

/-- File resolver, from findDownloadedFile in server.js: over the
directory listing (none when readdirSync throws, which the source
catches and converts to null) it returns the name of the first entry
satisfying completedMatch, and null when no entry qualifies or the
directory cannot be read. -/
def findDownloadedFile (listing : Option (List FileEntry)) (baseName : String) :
    Option String :=
  match listing with
  | none => none
  | some files => (files.find? (completedMatch baseName)).map FileEntry.name

/-- The retention window of cleanupOldFiles: 30 * 60 * 1000 ms. -/
def maxAgeMs : Int := 30 * 60 * 1000

/-- Retention sweeper body, from cleanupOldFiles in server.js: given
the current time and the directory listing paired with each entry
modification time (none when the directory is missing or unreadable),
it deletes exactly the entries whose age strictly exceeds the 30 minute
window; the returned list is the names deleted by this tick. -/
def cleanupOldFiles (now : Int) (listing : Option (List (String × Int))) :
    List String :=
  match listing with
  | none => []
  | some files => (files.filter (fun f => maxAgeMs < now - f.2)).map Prod.fst

/-- The predicate of cleanupPartialFiles in server.js: the entry name
contains the base name of the output template and ends in one of the
partial-artifact suffixes. -/
def partialMatch (basePath : String) (file : String) : Bool :=
  strIncludes file (pathBasename basePath) &&
    (strEndsWith file ".part" || strEndsWith file ".ytdl")

/-- The forEach loop of cleanupPartialFiles over the directory listing:
matching entries are unlinked in order; when an unlink throws (the
oracle unlinkFails) the exception aborts the loop and is caught by the
surrounding try, leaving the remaining entries untouched.  The result
is the directory contents after the call. -/
def cleanupPartialLoop (basePath : String) (unlinkFails : String → Bool) :
    List String → List String
  | [] => []
  | f :: rest =>
    if partialMatch basePath f then
      if unlinkFails f then f :: rest
      else cleanupPartialLoop basePath unlinkFails rest
    else f :: cleanupPartialLoop basePath unlinkFails rest

/-- Partial-artifact cleanup, from cleanupPartialFiles in server.js:
when readdirSync throws (readFails) the exception is caught and the
directory is left unchanged; otherwise the unlink loop runs.  The
function is total: every filesystem exception is swallowed by the try
block of the source, never propagated to the caller. -/
def cleanupPartialFiles (basePath : String) (unlinkFails : String → Bool)
    (readFails : Bool) (dir : List String) : List String :=
  if readFails then dir else cleanupPartialLoop basePath unlinkFails dir

/-- One observable event of a sequencer run: an invocation of the
extraction tool with a full argument list, an inter-attempt delay of
the given number of milliseconds, or a partial-artifact cleanup for
the given base name. -/
inductive Ev where
  | invoke (args : List String)
  | delayMs (ms : Nat)
  | cleanup (base : String)
deriving DecidableEq, Repr

/-- Parsed structured output of the extraction tool as consumed by the
source; a missing or empty identifier field is the falsy case of the
source, a missing title the fallback case of the handlers. -/
structure VideoInfo where
  id : String
  title : Option String
deriving DecidableEq, Repr

/-- Generic strategy loop shared by getVideoInfo and downloadMedia in
both server variants: each attempt yields its own trace and an
optional success value; on success the loop stops and returns it; on
failure, when further methods remain, the fixed delay is inserted and
the loop advances; after a failing last method the loop ends with no
value (the caller then throws the terminal error). -/
def seqLoop (attempt : List String → List Ev × Option β) (delay : Nat) :
    List (List String) → List Ev × Option β
  | [] => ([], none)
  | [m] => attempt m
  | m :: r :: rs =>
    match attempt m with
    | (tr, some b) => (tr, some b)
    | (tr, none) =>
      let p := seqLoop attempt delay (r :: rs)
      (tr ++ Ev.delayMs delay :: p.1, p.2)

/-- One metadata attempt, from the try block of getVideoInfo: the
process invoker runs on the argument list (its outcome supplied by the
environment oracle env); on resolution with nonempty standard output
the output is parsed (the parse oracle models JSON.parse together with
field extraction, returning none when JSON.parse throws) and the
attempt succeeds exactly when the parsed identifier field is truthy;
every other case is that attempt failing. -/
def infoAttempt (env : List String → ProcEvent) (parse : String → Option VideoInfo)
    (m : List String) : List Ev × Option VideoInfo :=
  match executeYtDlp (env m) with
  | .error _ => ([Ev.invoke m], none)
  | .ok r =>
    if r.stdout ≠ "" then
      match parse r.stdout with
      | some info => if info.id ≠ "" then ([Ev.invoke m], some info) else ([Ev.invoke m], none)
      | none => ([Ev.invoke m], none)
    else ([Ev.invoke m], none)

/-- The three statically configured metadata strategies of the first
server variant, from the methods array of its getVideoInfo. -/
def infoMethods (url : String) : List (List String) :=
  [["--dump-json", "--no-playlist", "--ignore-errors", "--no-warnings",
    "--extractor-args", "youtube:player-client=android",
    "--throttled-rate", "10K", "--sleep-requests", "5", url],
   ["--dump-json", "--no-playlist", "--ignore-errors", "--no-warnings",
    "--user-agent", "Mozilla/5.0 (Linux; Android 10) AppleWebKit/537.36",
    "--sleep-interval", "3", url],
   ["--dump-json", "--no-playlist", "--ignore-errors", url]]

/-- Metadata sequencer of the first server variant, from its
getVideoInfo: the three strategies are tried in order with a 5000 ms
delay between attempts, and exhaustion throws the fixed terminal
message. -/
def getVideoInfo (env : List String → ProcEvent) (parse : String → Option VideoInfo)
    (url : String) : List Ev × Except String VideoInfo :=
  match seqLoop (infoAttempt env parse) 5000 (infoMethods url) with
  | (tr, some info) => (tr, .ok info)
  | (tr, none) =>
    (tr, .error "All methods failed. YouTube is blocking requests from cloud servers.")

/-- Download options as passed to downloadMedia: the output template
path and the format-selection arguments. -/
structure DlOptions where
  output : String
  args : List String
deriving DecidableEq, Repr

/-- The splice call of downloadMedia: when the ffmpeg binary exists,
the location flag and directory are inserted at index 2 of every
method. -/
def spliceFfmpeg (hasFfmpeg : Bool) (ffmpegDirPath : String)
    (ms : List (List String)) : List (List String) :=
  if hasFfmpeg then
    ms.map (fun m => m.take 2 ++ ["--ffmpeg-location", ffmpegDirPath] ++ m.drop 2)
  else ms

/-- The three statically configured download strategies of the first
server variant, from the methods array of its downloadMedia, with the
conditional ffmpeg splice applied. -/
def dlMethods (hasFfmpeg : Bool) (ffmpegDirPath : String) (opts : DlOptions)
    (url : String) : List (List String) :=
  spliceFfmpeg hasFfmpeg ffmpegDirPath
    [["--no-playlist", "--ignore-errors", "--no-warnings",
      "--extractor-args", "youtube:player-client=android",
      "--throttled-rate", "10K", "--sleep-requests", "5"] ++ opts.args ++
      ["-o", opts.output, url],
     ["--no-playlist", "--ignore-errors", "--no-warnings",
      "--user-agent", "Mozilla/5.0 (Linux; Android 10) AppleWebKit/537.36",
      "--sleep-interval", "3"] ++ opts.args ++ ["-o", opts.output, url],
     ["--no-playlist", "--ignore-errors"] ++ opts.args ++ ["-o", opts.output, url]]

/-- One download attempt, from the loop body of downloadMedia: the
process invoker runs on the argument list; when it rejects, the catch
block triggers partial-artifact cleanup for the base name of the
output template and the attempt fails; when it resolves, the file
resolver is consulted on the directory listing observed after the
invocation (the dirAfter oracle) and the attempt succeeds exactly when
a completed file is found — when none is found the attempt fails with
no cleanup, because only the catch block cleans up. -/
def dlAttempt (env : List String → ProcEvent)
    (dirAfter : List String → Option (List FileEntry)) (output : String)
    (m : List String) : List Ev × Option Unit :=
  match executeYtDlp (env m) with
  | .error _ => ([Ev.invoke m, Ev.cleanup (pathBasename output)], none)
  | .ok _ =>
    match findDownloadedFile (dirAfter m) (pathBasename output) with
    | some _ => ([Ev.invoke m], some ())
    | none => ([Ev.invoke m], none)

/-- Download sequencer of the first server variant, from its
downloadMedia: the three strategies are tried in order with a 5000 ms
delay between attempts, and exhaustion throws the fixed terminal
message. -/
def downloadMedia (env : List String → ProcEvent)
    (dirAfter : List String → Option (List FileEntry)) (hasFfmpeg : Bool)
    (ffmpegDirPath : String) (opts : DlOptions) (url : String) :
    List Ev × Except String Unit :=
  match seqLoop (dlAttempt env dirAfter opts.output) 5000
      (dlMethods hasFfmpeg ffmpegDirPath opts url) with
  | (tr, some _) => (tr, .ok ())
  | (tr, none) =>
    (tr, .error "All download methods failed. YouTube is blocking downloads from cloud servers.")

namespace Cookie

/-- Metadata strategies of the second (cookie-aware) server variant:
a cookie-authenticated method when the cookie file exists, then the
plain fallback method. -/
def infoMethods (hasCookies : Bool) (cookiesPath url : String) :
    List (List String) :=
  (if hasCookies then
    [["--dump-json", "--no-playlist", "--ignore-errors", "--cookies", cookiesPath, url]]
   else []) ++
  [["--dump-json", "--no-playlist", "--ignore-errors", "--no-warnings", url]]

/-- Terminal message of the cookie-aware getVideoInfo, whose tail
depends on whether the cookie file was present. -/
def infoFailMsg (hasCookies : Bool) : String :=
  "All methods failed. " ++
    (if hasCookies then "Cookies might be expired or invalid."
     else "No cookies provided. YouTube is blocking requests.")

/-- Metadata sequencer of the second server variant, from its
getVideoInfo: the configured strategies are tried in order with a
2000 ms delay between attempts, and exhaustion throws the cookie-aware
terminal message. -/
def getVideoInfo (hasCookies : Bool) (cookiesPath : String)
    (env : List String → ProcEvent) (parse : String → Option VideoInfo)
    (url : String) : List Ev × Except String VideoInfo :=
  match seqLoop (infoAttempt env parse) 2000 (infoMethods hasCookies cookiesPath url) with
  | (tr, some info) => (tr, .ok info)
  | (tr, none) => (tr, .error (infoFailMsg hasCookies))

/-- Download strategies of the second server variant with the
conditional ffmpeg splice applied. -/
def dlMethods (hasCookies : Bool) (cookiesPath : String) (hasFfmpeg : Bool)
    (ffmpegDirPath : String) (opts : DlOptions) (url : String) :
    List (List String) :=
  spliceFfmpeg hasFfmpeg ffmpegDirPath
    ((if hasCookies then
       [["--no-playlist", "--ignore-errors", "--cookies", cookiesPath] ++ opts.args ++
         ["-o", opts.output, url]]
      else []) ++
     [["--no-playlist", "--ignore-errors"] ++ opts.args ++ ["-o", opts.output, url]])

/-- Terminal message of the cookie-aware downloadMedia, whose tail
depends on whether the cookie file was present. -/
def dlFailMsg (hasCookies : Bool) : String :=
  "All download methods failed. " ++
    (if hasCookies then "Cookies might be expired or invalid."
     else "No cookies provided. YouTube is blocking downloads.")

/-- Download sequencer of the second server variant, from its
downloadMedia: the configured strategies are tried in order with a
2000 ms delay between attempts, and exhaustion throws the cookie-aware
terminal message. -/
def downloadMedia (hasCookies : Bool) (cookiesPath : String)
    (env : List String → ProcEvent)
    (dirAfter : List String → Option (List FileEntry)) (hasFfmpeg : Bool)
    (ffmpegDirPath : String) (opts : DlOptions) (url : String) :
    List Ev × Except String Unit :=
  match seqLoop (dlAttempt env dirAfter opts.output) 2000
      (dlMethods hasCookies cookiesPath hasFfmpeg ffmpegDirPath opts url) with
  | (tr, some _) => (tr, .ok ())
  | (tr, none) => (tr, .error (dlFailMsg hasCookies))

end Cookie

/-- The response of one request as far as the claims observe it: the
HTTP status, the success flag of the JSON body, and its error message
when one is present.  A successfully streamed file is modelled as a
200 response with no error. -/
structure Resp where
  status : Nat
  success : Bool
  error : Option String
deriving DecidableEq, Repr

/-- The job prefix built by the download handlers: the current time in
milliseconds rendered in decimal, an underscore, and the sanitized
title. -/
def mkBaseName (now : Nat) (cleanTitle : String) : String :=
  Nat.repr now ++ "_" ++ cleanTitle

/-- One download job as created by a handler: the requested resource
locator together with the creation time and the sanitized title from
which its output prefix is derived. -/
structure DownloadJob where
  url : String
  now : Nat
  cleanTitle : String
deriving DecidableEq, Repr

/-- The output prefix of a download job. -/
def DownloadJob.baseName (j : DownloadJob) : String :=
  mkBaseName j.now j.cleanTitle

/-- The display title used by a download handler: the title field of
the fetched metadata when it is present and truthy, else the fallback
word passed by that handler. -/
def fallbackTitle (infoRes : Except String VideoInfo) (fallback : String) : String :=
  match infoRes with
  | .ok info =>
    match info.title with
    | some t => if t = "" then fallback else t
    | none => fallback
  | .error _ => fallback

/-- Metadata route handler, from the v-i handler of the first server
variant: a missing or empty url query parameter and a url rejected by
the WHATWG URL parser (the validUrl oracle models the new URL
constructor behind isValidUrl) each answer 400 with an error body
before anything is spawned; otherwise the metadata sequencer runs and
its outcome is mapped to 200 or to the fixed 500 error. -/
def viHandler (validUrl : String → Bool) (env : List String → ProcEvent)
    (parse : String → Option VideoInfo) (url? : Option String) :
    Resp × List Ev :=
  match url? with
  | none => (⟨400, false, some "URL parameter is required"⟩, [])
  | some url =>
    if url = "" then (⟨400, false, some "URL parameter is required"⟩, [])
    else if !validUrl url then (⟨400, false, some "Invalid URL provided"⟩, [])
    else
      match getVideoInfo env parse url with
      | (tr, .ok _) => (⟨200, true, none⟩, tr)
      | (tr, .error _) =>
        (⟨500, false,
          some "YouTube is blocking requests from cloud servers. For reliable access, run this API locally on your computer."⟩,
         tr)

/-- The format arguments of the video download handler. -/
def vdlArgs : List String :=
  ["-f", "best[ext=mp4]/bestvideo[ext=mp4]+bestaudio[ext=m4a]/best",
   "--merge-output-format", "mp4"]

/-- The fixed 500 message of the download handlers of the first server
variant. -/
def dlCloudMsg : String :=
  "YouTube is blocking downloads from cloud servers. For reliable downloads, run this API locally on your computer."

/-- Video download handler, from the v-dl handler of the first server
variant: after the same validation as the metadata route it fetches
metadata best-effort (failure only downgrades the title to the word
video), builds the unique job prefix from the current time and the
sanitized title, runs the download sequencer, resolves the produced
file, and answers 200 on success; a sequencer failure or a missing
produced file reaches the catch block, which cleans partial artifacts
for the job prefix and answers the fixed 500 error. -/
def vdlHandler (validUrl : String → Bool) (env : List String → ProcEvent)
    (parse : String → Option VideoInfo)
    (dirAfter : List String → Option (List FileEntry))
    (dirFinal : Option (List FileEntry)) (hasFfmpeg : Bool)
    (ffmpegDirPath downloadsDir : String) (now : Nat) (url? : Option String) :
    Resp × List Ev :=
  match url? with
  | none => (⟨400, false, some "URL parameter is required"⟩, [])
  | some url =>
    if url = "" then (⟨400, false, some "URL parameter is required"⟩, [])
    else if !validUrl url then (⟨400, false, some "Invalid URL provided"⟩, [])
    else
      let infoRun := getVideoInfo env parse url
      let cleanTitle := cleanFilename (some (fallbackTitle infoRun.2 "video"))
      let baseName := mkBaseName now cleanTitle
      let tempFilePath := downloadsDir ++ "/" ++ baseName
      let dlRun := downloadMedia env dirAfter hasFfmpeg ffmpegDirPath
        ⟨tempFilePath, vdlArgs⟩ url
      match dlRun.2 with
      | .error _ =>
        (⟨500, false, some dlCloudMsg⟩,
         infoRun.1 ++ dlRun.1 ++ [Ev.cleanup (pathBasename tempFilePath)])
      | .ok _ =>
        match findDownloadedFile dirFinal baseName with
        | none =>
          (⟨500, false, some dlCloudMsg⟩,
           infoRun.1 ++ dlRun.1 ++ [Ev.cleanup (pathBasename tempFilePath)])
        | some _ => (⟨200, true, none⟩, infoRun.1 ++ dlRun.1)

/-- The primary format arguments of the audio download handler. -/
def adlMp3Args : List String :=
  ["-f", "bestaudio", "--extract-audio", "--audio-format", "mp3",
   "--audio-quality", "0"]

/-- The fallback format arguments of the audio download handler. -/
def adlM4aArgs : List String :=
  ["-f", "bestaudio[ext=m4a]/bestaudio", "--extract-audio", "--audio-format", "m4a"]

/-- Audio download handler, from the a-dl handler of the first server
variant: after validation and the best-effort metadata fetch it first
runs the download sequencer with the mp3 arguments and, when that run
throws, retries once with the m4a arguments; a failure of the retry or
a missing produced file reaches the catch block, which cleans partial
artifacts for the job prefix and answers the fixed 500 error. -/
def adlHandler (validUrl : String → Bool) (env : List String → ProcEvent)
    (parse : String → Option VideoInfo)
    (dirAfter : List String → Option (List FileEntry))
    (dirFinal : Option (List FileEntry)) (hasFfmpeg : Bool)
    (ffmpegDirPath downloadsDir : String) (now : Nat) (url? : Option String) :
    Resp × List Ev :=
  match url? with
  | none => (⟨400, false, some "URL parameter is required"⟩, [])
  | some url =>
    if url = "" then (⟨400, false, some "URL parameter is required"⟩, [])
    else if !validUrl url then (⟨400, false, some "Invalid URL provided"⟩, [])
    else
      let infoRun := getVideoInfo env parse url
      let cleanTitle := cleanFilename (some (fallbackTitle infoRun.2 "audio"))
      let baseName := mkBaseName now cleanTitle
      let tempFilePath := downloadsDir ++ "/" ++ baseName
      let run1 := downloadMedia env dirAfter hasFfmpeg ffmpegDirPath
        ⟨tempFilePath, adlMp3Args⟩ url
      let afterDl : List Ev × Except String Unit :=
        match run1.2 with
        | .ok _ => run1
        | .error _ =>
          let run2 := downloadMedia env dirAfter hasFfmpeg ffmpegDirPath
            ⟨tempFilePath, adlM4aArgs⟩ url
          (run1.1 ++ run2.1, run2.2)
      match afterDl.2 with
      | .error _ =>
        (⟨500, false, some dlCloudMsg⟩,
         infoRun.1 ++ afterDl.1 ++ [Ev.cleanup (pathBasename tempFilePath)])
      | .ok _ =>
        match findDownloadedFile dirFinal baseName with
        | none =>
          (⟨500, false, some dlCloudMsg⟩,
           infoRun.1 ++ afterDl.1 ++ [Ev.cleanup (pathBasename tempFilePath)])
        | some _ => (⟨200, true, none⟩, infoRun.1 ++ afterDl.1)

/-- The trace tail of one failed download attempt after its invoke
event: the cleanup triggered by the catch block when the process
invocation rejected, and nothing when it resolved. -/
def dlFailTail (env : List String → ProcEvent) (output : String)
    (m : List String) : List Ev :=
  match executeYtDlp (env m) with
  | .error _ => [Ev.cleanup (pathBasename output)]
  | .ok _ => []

/-- Joins the per-attempt traces of an exhausted run, inserting one
delay event between consecutive attempts and none after the last. -/
def joinWithDelay (d : Nat) : List (List Ev) → List Ev
  | [] => []
  | [tr] => tr
  | tr :: r :: rs => tr ++ Ev.delayMs d :: joinWithDelay d (r :: rs)

/-! Unfolding lemmas for the strategy loop. -/

theorem seqLoop_cons_pos (attempt : List String → List Ev × Option β) (d : Nat)
    (m : List String) (rest : List (List String)) (b : β)
    (h : (attempt m).2 = some b) :
    seqLoop attempt d (m :: rest) = ((attempt m).1, some b) := by
  rcases hm : attempt m with ⟨tr, r⟩
  rw [hm] at h
  simp only at h
  subst h
  cases rest with
  | nil => simp [seqLoop, hm]
  | cons r rs => simp [seqLoop, hm]

theorem seqLoop_cons_neg_nil (attempt : List String → List Ev × Option β) (d : Nat)
    (m : List String) (h : (attempt m).2 = none) :
    seqLoop attempt d [m] = ((attempt m).1, none) := by
  rcases hm : attempt m with ⟨tr, r⟩
  rw [hm] at h
  simp only at h
  subst h
  simp [seqLoop, hm]

theorem seqLoop_cons_neg_cons (attempt : List String → List Ev × Option β) (d : Nat)
    (m r : List String) (rs : List (List String)) (h : (attempt m).2 = none) :
    seqLoop attempt d (m :: r :: rs) =
      ((attempt m).1 ++ Ev.delayMs d :: (seqLoop attempt d (r :: rs)).1,
       (seqLoop attempt d (r :: rs)).2) := by
  rcases hm : attempt m with ⟨tr, x⟩
  rw [hm] at h
  simp only at h
  subst h
  simp [seqLoop, hm]

/-- When every method of the earlier segment fails and the chosen
method succeeds, the loop runs the earlier segment in order with one
delay after each failure, then the successful method, and stops. -/
theorem seqLoop_success (attempt : List String → List Ev × Option β) (d : Nat) :
    ∀ (pre : List (List String)) (m : List String) (post : List (List String))
      (b : β),
      (∀ a ∈ pre, (attempt a).2 = none) → (attempt m).2 = some b →
      seqLoop attempt d (pre ++ m :: post) =
        ((pre.map fun a => (attempt a).1 ++ [Ev.delayMs d]).join ++ (attempt m).1,
         some b) := by
  intro pre
  induction pre with
  | nil =>
    intro m post b _ hm
    simpa using seqLoop_cons_pos attempt d m post b hm
  | cons a pre ih =>
    intro m post b hpre hm
    have ha : (attempt a).2 = none := hpre a (by simp)
    have hrec := ih m post b (fun x hx => hpre x (by simp [hx])) hm
    rcases hshape : pre ++ m :: post with _ | ⟨r, rs⟩
    · exact absurd (List.append_eq_nil.mp hshape).2 (by simp)
    · have hstep := seqLoop_cons_neg_cons attempt d a r rs ha
      rw [← hshape] at hstep
      rw [List.cons_append, hstep, hrec]
      simp

/-- When every method fails, the loop runs all of them in order with
one delay between consecutive attempts and none after the last, and
yields no value. -/
theorem seqLoop_all_fail (attempt : List String → List Ev × Option β) (d : Nat) :
    ∀ (ms : List (List String)),
      (∀ m ∈ ms, (attempt m).2 = none) →
      seqLoop attempt d ms =
        (joinWithDelay d (ms.map fun m => (attempt m).1), none) := by
  intro ms
  induction ms with
  | nil => intro _; rfl
  | cons m rest ih =>
    intro h
    have hm : (attempt m).2 = none := h m (by simp)
    match rest with
    | [] => simpa [joinWithDelay] using seqLoop_cons_neg_nil attempt d m hm
    | r :: rs =>
      have hrec := ih (fun x hx => h x (by simp [hx]))
      rw [seqLoop_cons_neg_cons attempt d m r rs hm, hrec]
      simp [joinWithDelay]

/-- Every metadata attempt emits exactly its own invocation event. -/
theorem infoAttempt_fst (env : List String → ProcEvent)
    (parse : String → Option VideoInfo) (m : List String) :
    (infoAttempt env parse m).1 = [Ev.invoke m] := by
  unfold infoAttempt
  rcases executeYtDlp (env m) with e | r
  · rfl
  · by_cases hs : r.stdout ≠ ""
    · rcases hp : parse r.stdout with _ | info
      · simp [hs, hp]
      · by_cases hid : info.id ≠ "" <;> simp [hs, hp, hid]
    · simp [hs]

/-- Every download attempt emits its invocation event followed by a
cleanup exactly when the process invocation rejected. -/
theorem dlAttempt_fst (env : List String → ProcEvent)
    (dirAfter : List String → Option (List FileEntry)) (output : String)
    (m : List String) :
    (dlAttempt env dirAfter output m).1 =
      Ev.invoke m :: dlFailTail env output m := by
  unfold dlAttempt dlFailTail
  rcases executeYtDlp (env m) with e | r
  · rfl
  · simp only
    rcases findDownloadedFile (dirAfter m) (pathBasename output) with _ | f <;> rfl

/-- Concrete environment for the C1 witness: the first metadata
strategy (the only one carrying the extractor-args flag) rejects with
exit code 1, every other invocation resolves with output JSONOK. -/
def envC1 : List String → ProcEvent := fun args =>
  if "--extractor-args" ∈ args then .exited 1 "" "blocked"
  else .exited 0 "JSONOK" ""

/-- Concrete parse oracle for the C1 witness. -/
def parseC1 : String → Option VideoInfo := fun s =>
  if s = "JSONOK" then some ⟨"vid1", some "Title"⟩ else none

/-- First metadata strategy instantiated at the witness url. -/
def c1m1 : List String :=
  ["--dump-json", "--no-playlist", "--ignore-errors", "--no-warnings",
   "--extractor-args", "youtube:player-client=android",
   "--throttled-rate", "10K", "--sleep-requests", "5", "https://y.t/w"]

/-- Second metadata strategy instantiated at the witness url. -/
def c1m2 : List String :=
  ["--dump-json", "--no-playlist", "--ignore-errors", "--no-warnings",
   "--user-agent", "Mozilla/5.0 (Linux; Android 10) AppleWebKit/537.36",
   "--sleep-interval", "3", "https://y.t/w"]

/-- Third metadata strategy instantiated at the witness url. -/
def c1m3 : List String :=
  ["--dump-json", "--no-playlist", "--ignore-errors", "https://y.t/w"]

/-- A successful download attempt emits exactly its invocation
event. -/
theorem dlAttempt_pos_fst (env : List String → ProcEvent)
    (dirAfter : List String → Option (List FileEntry)) (output : String)
    (m : List String) (u : Unit)
    (h : (dlAttempt env dirAfter output m).2 = some u) :
    (dlAttempt env dirAfter output m).1 = [Ev.invoke m] := by
  rw [dlAttempt_fst]
  rcases he : executeYtDlp (env m) with e | r
  · unfold dlAttempt at h
    rw [he] at h
    simp at h
  · unfold dlFailTail
    rw [he]

/-! Decimal rendering facts used for the job-prefix analysis: the
decimal digits of Nat.repr never include an underscore and determine
the number uniquely, so a prefix of the form time-underscore-title is
injective in the pair. -/

theorem digitChar_lt_ten_ne_us : ∀ n < 10, Nat.digitChar n ≠ '_' := by decide

theorem digitChar_inj_lt :
    ∀ a < 10, ∀ b < 10, Nat.digitChar a = Nat.digitChar b → a = b := by
  decide

theorem toDigitsCore_acc (fuel : Nat) : ∀ (n : Nat) (ds : List Char),
    Nat.toDigitsCore 10 fuel n ds = Nat.toDigitsCore 10 fuel n [] ++ ds := by
  induction fuel with
  | zero => intro n ds; simp [Nat.toDigitsCore]
  | succ fuel ih =>
    intro n ds
    simp only [Nat.toDigitsCore]
    by_cases h : n / 10 = 0
    · simp [h]
    · simp only [h, if_false]
      rw [ih (n / 10) (Nat.digitChar (n % 10) :: ds),
          ih (n / 10) [Nat.digitChar (n % 10)]]
      simp

theorem toDigitsCore_fuel : ∀ (n f₁ f₂ : Nat), n < f₁ → n < f₂ →
    Nat.toDigitsCore 10 f₁ n [] = Nat.toDigitsCore 10 f₂ n [] := by
  intro n
  induction n using Nat.strong_induction_on with
  | _ n ih =>
    intro f₁ f₂ h₁ h₂
    match f₁, h₁ with
    | g₁ + 1, h₁ =>
    match f₂, h₂ with
    | g₂ + 1, h₂ =>
    simp only [Nat.toDigitsCore]
    by_cases h : n / 10 = 0
    · simp [h]
    · simp only [h, if_false]
      have hlt : n / 10 < n := Nat.div_lt_self (by omega) (by omega)
      rw [toDigitsCore_acc g₁ (n / 10), toDigitsCore_acc g₂ (n / 10)]
      rw [ih (n / 10) hlt g₁ g₂ (by omega) (by omega)]

theorem toDigits_step (n : Nat) :
    Nat.toDigits 10 n =
      if n < 10 then [Nat.digitChar n]
      else Nat.toDigits 10 (n / 10) ++ [Nat.digitChar (n % 10)] := by
  unfold Nat.toDigits
  simp only [Nat.toDigitsCore]
  by_cases h : n / 10 = 0
  · have hn : n < 10 := by omega
    simp [h, hn, Nat.mod_eq_of_lt hn]
  · have hn : ¬ n < 10 := by omega
    have hlt : n / 10 < n := Nat.div_lt_self (by omega) (by omega)
    simp only [h, if_false, hn]
    rw [toDigitsCore_acc n (n / 10)]
    rw [toDigitsCore_fuel (n / 10) n (n / 10 + 1) hlt (by omega)]
    congr 1

theorem toDigits_ne_nil (n : Nat) : Nat.toDigits 10 n ≠ [] := by
  rw [toDigits_step]
  by_cases h : n < 10 <;> simp [h]

theorem toDigits_no_us (n : Nat) : '_' ∉ Nat.toDigits 10 n := by
  induction n using Nat.strong_induction_on with
  | _ n ih =>
    rw [toDigits_step]
    by_cases h : n < 10
    · simp only [h, if_true, List.mem_singleton]
      exact fun hc => digitChar_lt_ten_ne_us n h hc.symm
    · simp only [h, if_false, List.mem_append, List.mem_singleton]
      rintro (hmem | hc)
      · exact ih (n / 10) (Nat.div_lt_self (by omega) (by omega)) hmem
      · exact digitChar_lt_ten_ne_us (n % 10) (Nat.mod_lt n (by omega)) hc.symm

theorem toDigits_inj :
    ∀ (n m : Nat), Nat.toDigits 10 n = Nat.toDigits 10 m → n = m := by
  intro n
  induction n using Nat.strong_induction_on with
  | _ n ih =>
    intro m h
    rw [toDigits_step, toDigits_step m] at h
    by_cases hn : n < 10 <;> by_cases hm : m < 10
    · simp only [hn, hm, if_true, List.cons.injEq] at h
      exact digitChar_inj_lt n hn m hm h.1
    · simp [hn, hm] at h
      have hlen := congrArg List.length h
      simp at hlen
      exact absurd hlen (toDigits_ne_nil (m / 10))
    · simp [hn, hm] at h
      have hlen := congrArg List.length h
      simp at hlen
      exact absurd hlen (toDigits_ne_nil (n / 10))
    · simp only [hn, hm, if_false] at h
      have hlen : [Nat.digitChar (n % 10)].length = [Nat.digitChar (m % 10)].length := rfl
      obtain ⟨hpre, hsuf⟩ := List.append_inj' h hlen
      have hdiv : n / 10 = m / 10 :=
        ih (n / 10) (Nat.div_lt_self (by omega) (by omega)) (m / 10) hpre
      have hmod : n % 10 = m % 10 := by
        simp only [List.cons.injEq] at hsuf
        exact digitChar_inj_lt (n % 10) (Nat.mod_lt n (by omega)) (m % 10)
          (Nat.mod_lt m (by omega)) hsuf.1
      omega

theorem strData_inj : ∀ (s t : String), s.data = t.data → s = t := by
  intro ⟨a⟩ ⟨b⟩ h
  exact congrArg String.mk h

theorem strData_append : ∀ (s t : String), (s ++ t).data = s.data ++ t.data := by
  intro ⟨a⟩ ⟨b⟩
  rfl

theorem natRepr_no_us (n : Nat) : '_' ∉ (Nat.repr n).data := by
  show '_' ∉ (Nat.toDigits 10 n).asString.data
  simpa using toDigits_no_us n

theorem natRepr_inj (n m : Nat) : Nat.repr n = Nat.repr m → n = m := by
  intro h
  have h2 : (Nat.toDigits 10 n).asString.data = (Nat.toDigits 10 m).asString.data :=
    congrArg String.data h
  simp at h2
  exact toDigits_inj n m h2

theorem us_split_inj : ∀ (a b c d : List Char), '_' ∉ a → '_' ∉ b →
    a ++ '_' :: c = b ++ '_' :: d → a = b ∧ c = d := by
  intro a
  induction a with
  | nil =>
    intro b c d _ hb h
    cases b with
    | nil => simpa using h
    | cons x xs =>
      simp only [List.nil_append, List.cons_append, List.cons.injEq] at h
      exact absurd (List.mem_cons.mpr (Or.inl h.1)) hb
  | cons x xs ih =>
    intro b c d ha hb h
    cases b with
    | nil =>
      simp only [List.nil_append, List.cons_append, List.cons.injEq] at h
      exact absurd (List.mem_cons.mpr (Or.inl h.1.symm)) ha
    | cons y ys =>
      simp only [List.cons_append, List.cons.injEq] at h
      obtain ⟨h1, h2⟩ := h
      obtain ⟨hpre, hsuf⟩ := ih ys c d (fun hx => ha (by simp [hx]))
        (fun hx => hb (by simp [hx])) h2
      exact ⟨by simp [h1, hpre], hsuf⟩

theorem mkBaseName_data (n : Nat) (t : String) :
    (mkBaseName n t).data = (Nat.repr n).data ++ '_' :: t.data := by
  show (Nat.repr n ++ "_" ++ t).data = _
  rw [strData_append, strData_append]
  show (Nat.repr n).data ++ ['_'] ++ t.data = _
  rw [List.append_assoc]
  rfl

/-! Theorems for the claims. -/

/-- C1: for both sequencers of the first server variant, whenever the
configured method list splits as an initial segment of failing
strategies followed by a succeeding one, the run invokes exactly the
strategies up to and including the succeeding one, strictly in list
order, with the 5000 ms delay exactly between consecutive attempts and
never after the last, and returns the result of the succeeding
strategy. -/
theorem c1_sequencer_first_success :
    (∀ (env : List String → ProcEvent) (parse : String → Option VideoInfo)
       (url : String) (pre : List (List String)) (m : List String)
       (post : List (List String)) (info : VideoInfo),
      infoMethods url = pre ++ m :: post →
      (∀ a ∈ pre, (infoAttempt env parse a).2 = none) →
      (infoAttempt env parse m).2 = some info →
      getVideoInfo env parse url =
        ((pre.map fun a => [Ev.invoke a, Ev.delayMs 5000]).join ++ [Ev.invoke m],
         .ok info)) ∧
    (∀ (env : List String → ProcEvent)
       (dirAfter : List String → Option (List FileEntry)) (hasFfmpeg : Bool)
       (ffmpegDirPath : String) (opts : DlOptions) (url : String)
       (pre : List (List String)) (m : List String) (post : List (List String)),
      dlMethods hasFfmpeg ffmpegDirPath opts url = pre ++ m :: post →
      (∀ a ∈ pre, (dlAttempt env dirAfter opts.output a).2 = none) →
      (dlAttempt env dirAfter opts.output m).2 = some () →
      downloadMedia env dirAfter hasFfmpeg ffmpegDirPath opts url =
        ((pre.map fun a =>
            Ev.invoke a :: (dlFailTail env opts.output a ++ [Ev.delayMs 5000])).join ++
           [Ev.invoke m],
         .ok ())) := by
  constructor
  · intro env parse url pre m post info hm hpre hsucc
    have hseq := seqLoop_success (infoAttempt env parse) 5000 pre m post info hpre hsucc
    have hmap : (pre.map fun a => (infoAttempt env parse a).1 ++ [Ev.delayMs 5000]) =
        pre.map fun a => [Ev.invoke a, Ev.delayMs 5000] :=
      List.map_congr_left (fun a _ => by rw [infoAttempt_fst]; rfl)
    rw [hmap, infoAttempt_fst env parse m] at hseq
    unfold getVideoInfo
    rw [hm, hseq]
  · intro env dirAfter hasFfmpeg ffmpegDirPath opts url pre m post hm hpre hsucc
    have hseq := seqLoop_success (dlAttempt env dirAfter opts.output) 5000 pre m post
      () hpre hsucc
    have hmap : (pre.map fun a => (dlAttempt env dirAfter opts.output a).1 ++ [Ev.delayMs 5000]) =
        pre.map fun a => Ev.invoke a :: (dlFailTail env opts.output a ++ [Ev.delayMs 5000]) :=
      List.map_congr_left (fun a _ => by rw [dlAttempt_fst]; rfl)
    rw [hmap, dlAttempt_pos_fst env dirAfter opts.output m () hsucc] at hseq
    unfold downloadMedia
    rw [hm, hseq]

/-- Witness for C1: with the first strategy failing and the second
succeeding, the metadata sequencer of the first variant invokes
exactly the first two strategies in order with one delay between them
and returns the parsed result of the second. -/
theorem c1_witness :
    getVideoInfo envC1 parseC1 "https://y.t/w" =
      ([Ev.invoke c1m1, Ev.delayMs 5000, Ev.invoke c1m2],
       .ok ⟨"vid1", some "Title"⟩) := by
  have h := c1_sequencer_first_success.1 envC1 parseC1 "https://y.t/w"
    [c1m1] c1m2 [c1m3] ⟨"vid1", some "Title"⟩ rfl (by decide) (by decide)
  exact h.trans rfl

/-- C2: for every invocation of the process invoker on a child that
exits, the promise resolves as success if and only if the exit code is
zero or any standard-output bytes were captured, the resolved value
carries the captured streams, and when the exit code is non-zero with
no standard output it rejects with the captured standard error when
nonempty, else with the exit-code message. -/
theorem c2_executeYtDlp_success_policy :
    ∀ (code : Int) (out err : String),
      ((∃ r, executeYtDlp (.exited code out err) = .ok r) ↔ code = 0 ∨ out ≠ "") ∧
      (∀ r, executeYtDlp (.exited code out err) = .ok r → r = ⟨out, err⟩) ∧
      (code ≠ 0 → out = "" →
        executeYtDlp (.exited code out err) =
          .error (if err ≠ "" then err else "Exit code: " ++ toString code)) := by
  intro code out err
  by_cases h : code = 0 ∨ out ≠ ""
  · refine ⟨⟨fun _ => h, fun _ => ⟨⟨out, err⟩, by simp [executeYtDlp, h]⟩⟩, ?_, ?_⟩
    · intro r hr
      simpa [executeYtDlp, h] using hr.symm
    · intro hc ho
      exact absurd h (by simp [hc, ho])
  · refine ⟨⟨?_, fun hh => absurd hh h⟩, ?_, ?_⟩
    · rintro ⟨r, hr⟩
      simp [executeYtDlp, h] at hr
    · intro r hr
      simp [executeYtDlp, h] at hr
    · intro _ _
      simp [executeYtDlp, h]

/-- Concrete environment for C4: the first download strategy (the one
carrying the extractor-args flag) resolves with output but produces no
file, every other strategy rejects. -/
def envC4 : List String → ProcEvent := fun args =>
  if "--extractor-args" ∈ args then .exited 0 "partial" ""
  else .exited 1 "" "blocked"

/-- Concrete directory oracle for C4: no file ever appears. -/
def dirAfterC4 : List String → Option (List FileEntry) := fun _ => some []

/-- Concrete download options for C4. -/
def optsC4 : DlOptions := ⟨"/d/1000_video", ["-f", "best"]⟩

/-- First download strategy of the first variant at the C4 input. -/
def c4m1 : List String :=
  ["--no-playlist", "--ignore-errors", "--no-warnings",
   "--extractor-args", "youtube:player-client=android",
   "--throttled-rate", "10K", "--sleep-requests", "5",
   "-f", "best", "-o", "/d/1000_video", "https://y.t/w"]

/-- Second download strategy of the first variant at the C4 input. -/
def c4m2 : List String :=
  ["--no-playlist", "--ignore-errors", "--no-warnings",
   "--user-agent", "Mozilla/5.0 (Linux; Android 10) AppleWebKit/537.36",
   "--sleep-interval", "3", "-f", "best", "-o", "/d/1000_video", "https://y.t/w"]

/-- Third download strategy of the first variant at the C4 input. -/
def c4m3 : List String :=
  ["--no-playlist", "--ignore-errors", "-f", "best", "-o", "/d/1000_video",
   "https://y.t/w"]

/-- Counterexample to C4: in this run every variant fails, yet the
full trace holds only two cleanup events for three failed attempts —
the first variant resolves without producing a file and the sequencer
advances (after its invoke comes the delay directly) without
triggering cleanup, because cleanup lives only in the catch block. -/
theorem c4_counterexample :
    downloadMedia envC4 dirAfterC4 false "" optsC4 "https://y.t/w" =
      ([Ev.invoke c4m1, Ev.delayMs 5000,
        Ev.invoke c4m2, Ev.cleanup "1000_video", Ev.delayMs 5000,
        Ev.invoke c4m3, Ev.cleanup "1000_video"],
       .error "All download methods failed. YouTube is blocking downloads from cloud servers.") ∧
    (downloadMedia envC4 dirAfterC4 false "" optsC4 "https://y.t/w").1.count
        (Ev.cleanup "1000_video") = 2 := by
  exact ⟨rfl, rfl⟩

/-- C4 as amended: in an exhausted download run, partial-artifact
cleanup for the job prefix is triggered exactly after each variant
whose process invocation rejected, before advancing; a variant whose
invocation resolved without yielding a completed file advances with no
cleanup.  This holds for the download sequencers of both server
variants. -/
theorem c4_amended_cleanup_only_on_rejection :
    (∀ (env : List String → ProcEvent)
       (dirAfter : List String → Option (List FileEntry)) (hasFfmpeg : Bool)
       (ffmpegDirPath : String) (opts : DlOptions) (url : String),
      (∀ m ∈ dlMethods hasFfmpeg ffmpegDirPath opts url,
        (dlAttempt env dirAfter opts.output m).2 = none) →
      downloadMedia env dirAfter hasFfmpeg ffmpegDirPath opts url =
        (joinWithDelay 5000
          ((dlMethods hasFfmpeg ffmpegDirPath opts url).map fun m =>
            Ev.invoke m :: dlFailTail env opts.output m),
         .error "All download methods failed. YouTube is blocking downloads from cloud servers.")) ∧
    (∀ (hasCookies : Bool) (cookiesPath : String) (env : List String → ProcEvent)
       (dirAfter : List String → Option (List FileEntry)) (hasFfmpeg : Bool)
       (ffmpegDirPath : String) (opts : DlOptions) (url : String),
      (∀ m ∈ Cookie.dlMethods hasCookies cookiesPath hasFfmpeg ffmpegDirPath opts url,
        (dlAttempt env dirAfter opts.output m).2 = none) →
      Cookie.downloadMedia hasCookies cookiesPath env dirAfter hasFfmpeg
          ffmpegDirPath opts url =
        (joinWithDelay 2000
          ((Cookie.dlMethods hasCookies cookiesPath hasFfmpeg ffmpegDirPath opts url).map
            fun m => Ev.invoke m :: dlFailTail env opts.output m),
         .error (Cookie.dlFailMsg hasCookies))) := by
  constructor
  · intro env dirAfter hasFfmpeg ffmpegDirPath opts url h
    have hseq := seqLoop_all_fail (dlAttempt env dirAfter opts.output) 5000
      (dlMethods hasFfmpeg ffmpegDirPath opts url) h
    have hmap : ((dlMethods hasFfmpeg ffmpegDirPath opts url).map fun m =>
        (dlAttempt env dirAfter opts.output m).1) =
        (dlMethods hasFfmpeg ffmpegDirPath opts url).map fun m =>
          Ev.invoke m :: dlFailTail env opts.output m :=
      List.map_congr_left (fun a _ => dlAttempt_fst env dirAfter opts.output a)
    rw [hmap] at hseq
    unfold downloadMedia
    rw [hseq]
  · intro hasCookies cookiesPath env dirAfter hasFfmpeg ffmpegDirPath opts url h
    have hseq := seqLoop_all_fail (dlAttempt env dirAfter opts.output) 2000
      (Cookie.dlMethods hasCookies cookiesPath hasFfmpeg ffmpegDirPath opts url) h
    have hmap : ((Cookie.dlMethods hasCookies cookiesPath hasFfmpeg ffmpegDirPath opts url).map
        fun m => (dlAttempt env dirAfter opts.output m).1) =
        (Cookie.dlMethods hasCookies cookiesPath hasFfmpeg ffmpegDirPath opts url).map
          fun m => Ev.invoke m :: dlFailTail env opts.output m :=
      List.map_congr_left (fun a _ => dlAttempt_fst env dirAfter opts.output a)
    rw [hmap] at hseq
    unfold Cookie.downloadMedia
    rw [hseq]

/-- Witness for the amended C4 at the concrete exhausted run of the
counterexample input. -/
theorem c4_witness :
    downloadMedia envC4 dirAfterC4 false "" optsC4 "https://y.t/w" =
      (joinWithDelay 5000
        ((dlMethods false "" optsC4 "https://y.t/w").map fun m =>
          Ev.invoke m :: dlFailTail envC4 optsC4.output m),
       .error "All download methods failed. YouTube is blocking downloads from cloud servers.") :=
  c4_amended_cleanup_only_on_rejection.1 envC4 dirAfterC4 false "" optsC4
    "https://y.t/w" (by decide)

/-- C5: when every strategy of the cookie-aware sequencers fails, the
run throws the terminal exhaustion error, and its message states that
cookies might be expired or invalid when the cookie file was present
and that no cookies were provided when it was absent — the two
messages differ.  The sequencer of the first variant (which has no
cookie support) likewise throws its fixed terminal exhaustion
message. -/
theorem c5_exhausted_error_names_cookie_state :
    (∀ (hasCookies : Bool) (cookiesPath : String) (env : List String → ProcEvent)
       (parse : String → Option VideoInfo) (url : String),
      (∀ m ∈ Cookie.infoMethods hasCookies cookiesPath url,
        (infoAttempt env parse m).2 = none) →
      (Cookie.getVideoInfo hasCookies cookiesPath env parse url).2 =
        .error (Cookie.infoFailMsg hasCookies)) ∧
    (∀ (hasCookies : Bool) (cookiesPath : String) (env : List String → ProcEvent)
       (dirAfter : List String → Option (List FileEntry)) (hasFfmpeg : Bool)
       (ffmpegDirPath : String) (opts : DlOptions) (url : String),
      (∀ m ∈ Cookie.dlMethods hasCookies cookiesPath hasFfmpeg ffmpegDirPath opts url,
        (dlAttempt env dirAfter opts.output m).2 = none) →
      (Cookie.downloadMedia hasCookies cookiesPath env dirAfter hasFfmpeg
          ffmpegDirPath opts url).2 =
        .error (Cookie.dlFailMsg hasCookies)) ∧
    Cookie.infoFailMsg true = "All methods failed. Cookies might be expired or invalid." ∧
    Cookie.infoFailMsg false = "All methods failed. No cookies provided. YouTube is blocking requests." ∧
    Cookie.dlFailMsg true = "All download methods failed. Cookies might be expired or invalid." ∧
    Cookie.dlFailMsg false = "All download methods failed. No cookies provided. YouTube is blocking downloads." ∧
    Cookie.infoFailMsg true ≠ Cookie.infoFailMsg false ∧
    Cookie.dlFailMsg true ≠ Cookie.dlFailMsg false ∧
    (∀ (env : List String → ProcEvent) (parse : String → Option VideoInfo)
       (url : String),
      (∀ m ∈ infoMethods url, (infoAttempt env parse m).2 = none) →
      (getVideoInfo env parse url).2 =
        .error "All methods failed. YouTube is blocking requests from cloud servers.") := by
  refine ⟨?_, ?_, by decide, by decide, by decide, by decide, by decide, by decide, ?_⟩
  · intro hasCookies cookiesPath env parse url h
    have hseq := seqLoop_all_fail (infoAttempt env parse) 2000
      (Cookie.infoMethods hasCookies cookiesPath url) h
    unfold Cookie.getVideoInfo
    rw [hseq]
  · intro hasCookies cookiesPath env dirAfter hasFfmpeg ffmpegDirPath opts url h
    have hseq := seqLoop_all_fail (dlAttempt env dirAfter opts.output) 2000
      (Cookie.dlMethods hasCookies cookiesPath hasFfmpeg ffmpegDirPath opts url) h
    unfold Cookie.downloadMedia
    rw [hseq]
  · intro env parse url h
    have hseq := seqLoop_all_fail (infoAttempt env parse) 5000 (infoMethods url) h
    unfold getVideoInfo
    rw [hseq]

/-- Witness for C5: a concrete exhausted run with the cookie file
present reports the cookie-oriented exhaustion message. -/
theorem c5_witness :
    (Cookie.getVideoInfo true "/app/cookies.txt" (fun _ => .exited 1 "" "err")
        (fun _ => none) "https://y.t/w").2 =
      .error "All methods failed. Cookies might be expired or invalid." := by
  have h := c5_exhausted_error_names_cookie_state.1 true "/app/cookies.txt"
    (fun _ => .exited 1 "" "err") (fun _ => none) "https://y.t/w" (by decide)
  exact h.trans (congrArg Except.error (by decide))

/-- Witness for C2 at a concrete non-zero exit with no standard
output. -/
theorem c2_witness : executeYtDlp (.exited 2 "" "oops") = .error "oops" := by
  have h := (c2_executeYtDlp_success_policy 2 "" "oops").2.2 (by decide) rfl
  simpa using h

/-- C3: the file resolver returns null when the directory cannot be
read, returns null when no entry qualifies, returns the name of the
first entry matching the completion predicate (name contains the
prefix, no partial suffix, non-zero size), and on the directory with
entries abc.part, abc.mp4, xyz.mp4 and prefix abc it returns abc.mp4,
never abc.part. -/
theorem c3_findDownloadedFile_first_completed :
    (∀ baseName, findDownloadedFile none baseName = none) ∧
    (∀ baseName files, (∀ f ∈ files, completedMatch baseName f = false) →
      findDownloadedFile (some files) baseName = none) ∧
    (∀ baseName pre f post, (∀ g ∈ pre, completedMatch baseName g = false) →
      completedMatch baseName f = true →
      findDownloadedFile (some (pre ++ f :: post)) baseName = some f.name) ∧
    findDownloadedFile
        (some [⟨"abc.part", 3⟩, ⟨"abc.mp4", 10⟩, ⟨"xyz.mp4", 4⟩]) "abc" =
      some "abc.mp4" := by
  refine ⟨fun _ => rfl, ?_, ?_, by decide⟩
  · intro baseName files h
    have hn : List.find? (completedMatch baseName) files = none :=
      List.find?_eq_none.mpr (by simpa using h)
    simp [findDownloadedFile, hn]
  · intro baseName pre f post hpre hf
    induction pre with
    | nil => simp [findDownloadedFile, List.find?_cons, hf]
    | cons g pre ih =>
      have hg : completedMatch baseName g = false := hpre g (by simp)
      have ih2 := ih (fun a ha => hpre a (by simp [ha]))
      simpa [findDownloadedFile, List.find?_cons, hg] using ih2

/-- Witness for C3 on the directory of the claim, applying the
first-match clause. -/
theorem c3_witness :
    findDownloadedFile
        (some [⟨"abc.part", 3⟩, ⟨"abc.mp4", 10⟩, ⟨"xyz.mp4", 4⟩]) "abc" =
      some "abc.mp4" :=
  c3_findDownloadedFile_first_completed.2.2.1 "abc" [⟨"abc.part", 3⟩]
    ⟨"abc.mp4", 10⟩ [⟨"xyz.mp4", 4⟩] (by decide) (by decide)

/-- C6: for each of the three routes, a request whose url query
parameter is missing (or empty, which the source treats as missing) or
rejected by the URL parser is answered with status 400, a body with
success false and an error message, and an empty event trace — no
external extraction process is spawned. -/
theorem c6_invalid_url_rejected_without_spawn :
    ∀ (validUrl : String → Bool) (env : List String → ProcEvent)
      (parse : String → Option VideoInfo)
      (dirAfter : List String → Option (List FileEntry))
      (dirFinal : Option (List FileEntry)) (hasFfmpeg : Bool)
      (ffmpegDirPath downloadsDir : String) (now : Nat) (url? : Option String),
      (url? = none ∨ url? = some "" ∨ ∃ u, url? = some u ∧ validUrl u = false) →
      ((viHandler validUrl env parse url?).1.status = 400 ∧
       (viHandler validUrl env parse url?).1.success = false ∧
       (viHandler validUrl env parse url?).1.error.isSome = true ∧
       (viHandler validUrl env parse url?).2 = []) ∧
      ((vdlHandler validUrl env parse dirAfter dirFinal hasFfmpeg ffmpegDirPath
          downloadsDir now url?).1.status = 400 ∧
       (vdlHandler validUrl env parse dirAfter dirFinal hasFfmpeg ffmpegDirPath
          downloadsDir now url?).1.success = false ∧
       (vdlHandler validUrl env parse dirAfter dirFinal hasFfmpeg ffmpegDirPath
          downloadsDir now url?).1.error.isSome = true ∧
       (vdlHandler validUrl env parse dirAfter dirFinal hasFfmpeg ffmpegDirPath
          downloadsDir now url?).2 = []) ∧
      ((adlHandler validUrl env parse dirAfter dirFinal hasFfmpeg ffmpegDirPath
          downloadsDir now url?).1.status = 400 ∧
       (adlHandler validUrl env parse dirAfter dirFinal hasFfmpeg ffmpegDirPath
          downloadsDir now url?).1.success = false ∧
       (adlHandler validUrl env parse dirAfter dirFinal hasFfmpeg ffmpegDirPath
          downloadsDir now url?).1.error.isSome = true ∧
       (adlHandler validUrl env parse dirAfter dirFinal hasFfmpeg ffmpegDirPath
          downloadsDir now url?).2 = []) := by
  intro validUrl env parse dirAfter dirFinal hasFfmpeg ffmpegDirPath downloadsDir
    now url? h
  rcases h with rfl | rfl | ⟨u, rfl, hu⟩
  · exact ⟨⟨rfl, rfl, rfl, rfl⟩, ⟨rfl, rfl, rfl, rfl⟩, ⟨rfl, rfl, rfl, rfl⟩⟩
  · exact ⟨⟨rfl, rfl, rfl, rfl⟩, ⟨rfl, rfl, rfl, rfl⟩, ⟨rfl, rfl, rfl, rfl⟩⟩
  · by_cases hu0 : u = ""
    · subst hu0
      exact ⟨⟨rfl, rfl, rfl, rfl⟩, ⟨rfl, rfl, rfl, rfl⟩, ⟨rfl, rfl, rfl, rfl⟩⟩
    · refine ⟨⟨?_, ?_, ?_, ?_⟩, ⟨?_, ?_, ?_, ?_⟩, ⟨?_, ?_, ?_, ?_⟩⟩ <;>
        simp [viHandler, vdlHandler, adlHandler, hu0, hu]

/-- Witness for C6: a concrete request with a rejected url is answered
400 by each route with no invocation event in any trace. -/
theorem c6_witness :
    ((viHandler (fun _ => false) (fun _ => .timedOut) (fun _ => none)
        (some "notaurl")).1.status = 400 ∧
     (viHandler (fun _ => false) (fun _ => .timedOut) (fun _ => none)
        (some "notaurl")).2 = []) ∧
    ((vdlHandler (fun _ => false) (fun _ => .timedOut) (fun _ => none)
        (fun _ => none) none false "" "" 0 (some "notaurl")).2 = []) ∧
    ((adlHandler (fun _ => false) (fun _ => .timedOut) (fun _ => none)
        (fun _ => none) none false "" "" 0 (some "notaurl")).2 = []) := by
  have h := c6_invalid_url_rejected_without_spawn (fun _ => false)
    (fun _ => .timedOut) (fun _ => none) (fun _ => none) none false "" "" 0
    (some "notaurl") (Or.inr (Or.inr ⟨"notaurl", rfl, rfl⟩))
  exact ⟨⟨h.1.1, h.1.2.2.2⟩, h.2.1.2.2.2, h.2.2.2.2.2⟩

/-- C7: on a sweep tick over a directory listing with distinct entry
names, an entry is deleted exactly when its age strictly exceeds 30
minutes; concretely a file 31 minutes old is deleted while one 29
minutes old is retained. -/
theorem c7_cleanupOldFiles_retention :
    (∀ (now : Int) (files : List (String × Int)) (p : String × Int),
      (files.map Prod.fst).Nodup → p ∈ files →
      (p.1 ∈ cleanupOldFiles now (some files) ↔ 30 * 60 * 1000 < now - p.2)) ∧
    cleanupOldFiles 10000000
        (some [("old.mp4", 10000000 - 31 * 60 * 1000),
               ("fresh.mp4", 10000000 - 29 * 60 * 1000)]) = ["old.mp4"] := by
  constructor
  · intro now files p hnd hp
    simp only [cleanupOldFiles, List.mem_map, List.mem_filter]
    constructor
    · rintro ⟨q, ⟨hqmem, hqcond⟩, hqname⟩
      have : q = p := List.inj_on_of_nodup_map hnd hqmem hp hqname
      subst this
      simpa [maxAgeMs] using hqcond
    · intro hage
      exact ⟨p, ⟨hp, by simpa [maxAgeMs] using hage⟩, rfl⟩
  · decide

/-- Witness for C7: the 31 minute old file of the concrete listing is
deleted, by the deletion criterion. -/
theorem c7_witness :
    "old.mp4" ∈ cleanupOldFiles 10000000
        (some [("old.mp4", 10000000 - 31 * 60 * 1000),
               ("fresh.mp4", 10000000 - 29 * 60 * 1000)]) :=
  (c7_cleanupOldFiles_retention.1 10000000
      [("old.mp4", 10000000 - 31 * 60 * 1000),
       ("fresh.mp4", 10000000 - 29 * 60 * 1000)]
      ("old.mp4", 10000000 - 31 * 60 * 1000) (by decide) (by decide)).mpr
    (by decide)

/-- Counterexample to C8: two distinct download jobs (for different
resource locators) created in the same millisecond with the same
sanitized title receive the same output prefix — the time-plus-title
token does not guarantee distinct prefixes for every pair of distinct
concurrent jobs. -/
theorem c8_counterexample :
    (⟨"https://a", 1000, "video"⟩ : DownloadJob) ≠ ⟨"https://b", 1000, "video"⟩ ∧
    DownloadJob.baseName ⟨"https://a", 1000, "video"⟩ =
      DownloadJob.baseName ⟨"https://b", 1000, "video"⟩ :=
  ⟨by decide, rfl⟩

/-- C8 as amended: the job prefix determines the creation time and the
sanitized title — two jobs receive the same output prefix only when
they were created in the same millisecond with the same sanitized
title, so prefixes of jobs differing in creation time or sanitized
title never collide.  (Distinct jobs sharing both, as in the
counterexample, do collide.) -/
theorem c8_amended_prefix_determines_time_title :
    ∀ (j₁ j₂ : DownloadJob), j₁.baseName = j₂.baseName →
      j₁.now = j₂.now ∧ j₁.cleanTitle = j₂.cleanTitle := by
  intro j₁ j₂ h
  have hd := congrArg String.data h
  rw [DownloadJob.baseName, DownloadJob.baseName, mkBaseName_data, mkBaseName_data] at hd
  obtain ⟨h1, h2⟩ := us_split_inj _ _ _ _ (natRepr_no_us j₁.now) (natRepr_no_us j₂.now) hd
  exact ⟨natRepr_inj j₁.now j₂.now (strData_inj _ _ h1), strData_inj _ _ h2⟩

/-- Witness for the amended C8 at the two concrete colliding jobs of
the counterexample. -/
theorem c8_witness :
    (⟨"https://a", 1000, "video"⟩ : DownloadJob).now =
        (⟨"https://b", 1000, "video"⟩ : DownloadJob).now ∧
      (⟨"https://a", 1000, "video"⟩ : DownloadJob).cleanTitle =
        (⟨"https://b", 1000, "video"⟩ : DownloadJob).cleanTitle :=
  c8_amended_prefix_determines_time_title ⟨"https://a", 1000, "video"⟩
    ⟨"https://b", 1000, "video"⟩ rfl

/-- C9: partial-artifact cleanup is idempotent and total at its
interface: the embedding is a total function (every filesystem
exception of the source is caught inside cleanupPartialFiles), running
it twice with the same prefix and oracles leaves the directory exactly
as one run does, and on a directory with no matching partial files it
changes nothing. -/
theorem c9_cleanupPartialFiles_idempotent :
    (∀ basePath unlinkFails readFails dir,
      cleanupPartialFiles basePath unlinkFails readFails
          (cleanupPartialFiles basePath unlinkFails readFails dir) =
        cleanupPartialFiles basePath unlinkFails readFails dir) ∧
    (∀ basePath unlinkFails readFails dir,
      (∀ f ∈ dir, partialMatch basePath f = false) →
      cleanupPartialFiles basePath unlinkFails readFails dir = dir) := by
  have loopIdem : ∀ (basePath : String) (unlinkFails : String → Bool)
      (dir : List String),
      cleanupPartialLoop basePath unlinkFails
          (cleanupPartialLoop basePath unlinkFails dir) =
        cleanupPartialLoop basePath unlinkFails dir := by
    intro basePath unlinkFails dir
    induction dir with
    | nil => rfl
    | cons f rest ih =>
      by_cases hm : partialMatch basePath f
      · by_cases hu : unlinkFails f
        · have hstep : cleanupPartialLoop basePath unlinkFails (f :: rest) = f :: rest := by
            simp [cleanupPartialLoop, hm, hu]
          rw [hstep, hstep]
        · simpa [cleanupPartialLoop, hm, hu] using ih
      · simp only [cleanupPartialLoop, hm]
        simpa [cleanupPartialLoop, hm] using ih
  constructor
  · intro basePath unlinkFails readFails dir
    by_cases hr : readFails
    · simp [cleanupPartialFiles, hr]
    · simp [cleanupPartialFiles, hr, loopIdem]
  · intro basePath unlinkFails readFails dir h
    by_cases hr : readFails
    · simp [cleanupPartialFiles, hr]
    · simp only [cleanupPartialFiles, hr, if_false, Bool.false_eq_true]
      induction dir with
      | nil => rfl
      | cons f rest ih =>
        have hf : partialMatch basePath f = false := h f (by simp)
        have ih2 := ih (fun a ha => h a (by simp [ha]))
        simp [cleanupPartialLoop, hf, ih2]

/-- Witness for C9: cleaning a directory with no matching partial
artifacts for the prefix leaves it unchanged. -/
theorem c9_witness :
    cleanupPartialFiles "/d/1000_video" (fun _ => false) false
        ["1000_video.mp4", "other.txt"] = ["1000_video.mp4", "other.txt"] :=
  c9_cleanupPartialFiles_idempotent.2 "/d/1000_video" (fun _ => false) false
    ["1000_video.mp4", "other.txt"] (by decide)

/-- C10: the sanitized filename never exceeds 100 characters, contains
none of the reserved characters, and a missing or empty input yields
the string unknown. -/
theorem c10_cleanFilename_bounds :
    ∀ input, (cleanFilename input).length ≤ 100 ∧
      (∀ c ∈ (cleanFilename input).data, c ∉ badChars) ∧
      cleanFilename none = "unknown" ∧ cleanFilename (some "") = "unknown" := by
  intro input
  refine ⟨?_, ?_, rfl, rfl⟩
  · match input with
    | none => decide
    | some s =>
      by_cases hs : s = ""
      · simp only [cleanFilename, hs, if_true]
        decide
      · show (cleanFilename (some s)).data.length ≤ 100
        simp only [cleanFilename, hs, if_false]
        calc ((s.data.map fun c => if c ∈ badChars then '_' else c).take 100).asString.data.length
            = ((s.data.map fun c => if c ∈ badChars then '_' else c).take 100).length := rfl
          _ ≤ 100 := by simpa using List.length_take_le 100 _
  · match input with
    | none => decide
    | some s =>
      by_cases hs : s = ""
      · simp only [cleanFilename, hs, if_true]
        decide
      · simp only [cleanFilename, hs, if_false]
        intro c hc
        have hc2 : c ∈ s.data.map fun a => if a ∈ badChars then '_' else a :=
          List.mem_of_mem_take hc
        obtain ⟨a, _, ha⟩ := List.mem_map.mp hc2
        by_cases hb : a ∈ badChars
        · rw [← ha]
          simp only [hb, if_true]
          decide
        · rw [← ha]
          simpa [hb] using hb

/-- Witness for C10 at a concrete title holding reserved characters. -/
theorem c10_witness :
    (cleanFilename (some "a<b>c:/|?*")).length ≤ 100 ∧
      cleanFilename none = "unknown" :=
  ⟨(c10_cleanFilename_bounds (some "a<b>c:/|?*")).1,
   (c10_cleanFilename_bounds none).2.2.1⟩

end YtDlpApi
